import Mathlib

/-!
# winrmcp: a verification development

A shallow embedding of the two Go source files of the package:

* `winrmcp.go`: `New`, `Winrmcp.Copy`, `Winrmcp.Write`, `fileWalker.copyFile`,
  `zipit`, `shouldUploadFile`;
* `info.go`: `fetchInfo`, `runPsVersion`, `runPsExecutionPolicy`,
  `runWinrmConfig`.

Conventions.

* A Go `error` result is an `Option`: `none` is `nil`.
* A Go run-time panic (nil pointer dereference, index out of range) is the
  `Run.panicked` outcome of the `Run` monad.
* The local file system, the remote channel and the helpers of the package
  that live in other files (`doCopy`, `winPath`, `parseEndpoint`,
  `tempFileName`, the `pslist` type) are inputs of the model: every theorem
  quantifies over them.
* The functions of the Go standard library are modelled for a Unix host
  (path separator `/`), on strings seen as lists of characters.
-/

namespace WinrmcpModel

/-! ## Go standard library: `strings` and `path/filepath` (Unix) -/

/-- Go `strings.TrimPrefix(s, prefix)`: `s` without the leading `prefix`, or `s`
itself when `s` does not start with `prefix`. -/
def stringsTrimPrefix (s pre : String) : String :=
  if pre.data.isPrefixOf s.data then String.mk (s.data.drop pre.data.length) else s

/-- Go `strings.Trim(s, cutset)`: `s` with all leading and all trailing
characters contained in `cutset` removed (the trailing ones first, as in
`trimLeftByte(trimRightByte(s, c), c)`). -/
def stringsTrim (s cutset : String) : String :=
  String.mk ((s.data.rdropWhile (fun c => decide (c ∈ cutset.data))).dropWhile
    (fun c => decide (c ∈ cutset.data)))

/-- Split a character list at every `/`; the result is never empty. -/
def splitSlash : List Char → List (List Char)
  | [] => [[]]
  | c :: cs =>
    match splitSlash cs with
    | [] => [[c]]
    | seg :: rest => if c = '/' then [] :: seg :: rest else (c :: seg) :: rest

/-- One step of the lexical processing of `filepath.Clean`: `stack` holds the
elements kept so far, innermost first. Empty elements and `.` are dropped; `..`
removes the preceding real element, is dropped at the root of a rooted path and
is kept at the start of a relative one. -/
def cleanStep (rooted : Bool) (stack : List (List Char)) (el : List Char) :
    List (List Char) :=
  if el = [] ∨ el = ['.'] then stack
  else if el = ['.', '.'] then
    match stack with
    | [] => if rooted then [] else [el]
    | top :: below => if top = ['.', '.'] then el :: top :: below else below
  else el :: stack

/-- Join path elements with `/`. -/
def joinSlash : List (List Char) → List Char
  | [] => []
  | [e] => e
  | e :: f :: rest => e ++ '/' :: joinSlash (f :: rest)

/-- Go `filepath.Clean` on Unix, on character lists: the shortest path
equivalent to the argument by purely lexical processing (multiple separators
become one, `.` elements disappear, inner `..` elements disappear with the
element before them, `..` at the root disappears, the empty result is `.`). -/
def cleanChars (p : List Char) : List Char :=
  if p = [] then ['.']
  else
    let rooted := p.head? = some '/'
    let kept := ((splitSlash p).foldl (cleanStep rooted) []).reverse
    let body := joinSlash kept
    if rooted then '/' :: body
    else if body = [] then ['.'] else body

/-- Go `filepath.Clean` (Unix). -/
def filepathClean (p : String) : String := String.mk (cleanChars p.data)

/-- Go `strings.Join(elems, "/")`. -/
def joinWithSlash : List String → String
  | [] => ""
  | [e] => e
  | e :: f :: rest => e ++ "/" ++ joinWithSlash (f :: rest)

/-- Go `filepath.Join` (Unix): leading empty elements are ignored, the rest is
joined with `/` and cleaned; the result is empty when every element is. -/
def filepathJoin : List String → String
  | [] => ""
  | e :: rest => if e = "" then filepathJoin rest else filepathClean (joinWithSlash (e :: rest))

/-- Go `filepath.Base` (Unix): the last element of the path, after removing
trailing slashes; `.` for the empty path and `/` for a path of slashes only. -/
def filepathBase (p : String) : String :=
  if p = "" then "."
  else
    let stripped := p.data.rdropWhile (fun c => c = '/')
    let last := (stripped.reverse.takeWhile (fun c => c ≠ '/')).reverse
    if stripped = [] then "/" else String.mk last

/-! ## Errors and outcomes -/

/-- Go `error` values. Errors coming from outside the package are opaque
messages; the other constructors are the errors the package builds itself with
`fmt.Errorf` and `errors.New`, one constructor per format string. -/
inductive GoError
  /-- An error produced by the operating system, a library or the channel. -/
  | external (msg : String)
  /-- The read-file error of `Copy` and `copyFile`: the path and the cause. -/
  | readFile (path : String) (cause : GoError)
  /-- The stat-file error of `Copy`: the path and the cause. -/
  | statFile (path : String) (cause : GoError)
  /-- Error `Error generating unique filename: %v` of `Copy`. -/
  | uniqueName (cause : GoError)
  /-- Error `Error Zipping directory: %s` of `Copy`. -/
  | zipping (cause : GoError)
  /-- The execute-script error of the PowerShell steps: the script and the cause. -/
  | executeScript (script : String) (cause : GoError)
  /-- The parse-results error of `runPsVersion`: the cause. -/
  | parseResults (cause : GoError)
  deriving DecidableEq, Repr

/-- The run-time panics the package can raise. -/
inductive Panic
  /-- A field is read through a nil pointer. -/
  | nilDereference
  /-- A slice is indexed at or beyond its length. -/
  | indexOutOfRange
  deriving DecidableEq, Repr

/-- The outcome of running a function: it returns a value or it panics. -/
inductive Run (α : Type)
  | returned (a : α)
  | panicked (p : Panic)
  deriving DecidableEq, Repr

/-- Sequencing of outcomes: a panic ends the computation. -/
def Run.bind {α β : Type} (m : Run α) (f : α → Run β) : Run β :=
  match m with
  | .returned a => f a
  | .panicked p => .panicked p

instance : Monad Run where
  pure := Run.returned
  bind := Run.bind

/-- Reading a field through a pointer: a panic when the pointer is nil. -/
def deref {α : Type} : Option α → Run α
  | some a => .returned a
  | none => .panicked .nilDereference

/-- Indexing a slice, `xs[i]`: a panic when `i` is out of range. -/
def index {α : Type} (xs : List α) (i : Nat) : Run α :=
  match xs.get? i with
  | some a => .returned a
  | none => .panicked .indexOutOfRange

/-! ## `winrmcp.go`: data -/

/-- A sequence of bytes. -/
abbrev Bytes := List UInt8

/-- What the package reads of an `os.FileInfo`: `Name()` and `IsDir()`. -/
structure FileInfo where
  name : String
  isDir : Bool
  deriving DecidableEq, Repr

/-- Compression method `zip.Store`. -/
def zipStore : Nat := 0

/-- Compression method `zip.Deflate`. -/
def zipDeflate : Nat := 8

/-- The fields of a `zip.FileHeader` that `zipit` sets. -/
structure FileHeader where
  Name : String
  Method : Nat
  deriving DecidableEq, Repr

/-- An entry of a zip archive: its header and the bytes written to the writer
that `CreateHeader` returned for it. -/
structure ArchiveEntry where
  header : FileHeader
  payload : Bytes
  deriving DecidableEq, Repr

/-- The contents of a local file: plain bytes, or the archive `zipit` wrote. -/
inductive Content
  | bytes (data : Bytes)
  | archive (entries : List ArchiveEntry)
  deriving DecidableEq, Repr

/-- An open `*os.File`, used as the `io.Reader` of a transfer. -/
structure File where
  path : String
  content : Content
  deriving DecidableEq, Repr

/-- One call of the `filepath.WalkFunc`: the arguments `path`, `info`, `err`
that `filepath.Walk` passes. -/
structure WalkEvent where
  path : String
  info : FileInfo
  err : Option GoError
  deriving DecidableEq, Repr

/-- Go `time.Duration`: a number of nanoseconds. -/
abbrev Duration := Int

/-- Struct `Auth`. -/
structure Auth where
  User : String := ""
  Password : String := ""
  deriving DecidableEq, Repr

/-- Struct `Config`; the zero value is `Config{}`. The transport decorator, a
function in Go, is an opaque name here, `none` being nil. -/
structure Config where
  Auth : Auth := {}
  Https : Bool := false
  Insecure : Bool := false
  TLSServerName : String := ""
  CACertBytes : Bytes := []
  ConnectTimeout : Duration := 0
  OperationTimeout : Duration := 0
  MaxOperationsPerShell : Int := 0
  TransportDecorator : Option String := none
  deriving DecidableEq, Repr

/-- Type `winrm.Parameters`. -/
structure Parameters where
  Timeout : String
  Locale : String
  EnvelopeSize : Int
  TransportDecorator : Option String := none
  deriving DecidableEq, Repr

/-- Type `winrm.Endpoint`, opaque: the value `parseEndpoint` built. -/
structure Endpoint where
  descr : String
  deriving DecidableEq, Repr

/-- Type `winrm.Client`: the arguments it was built from. -/
structure Client where
  endpoint : Endpoint
  user : String
  password : String
  params : Parameters
  deriving DecidableEq, Repr

/-- Struct `Winrmcp`; both fields are pointers. -/
structure Winrmcp where
  client : Option Client
  config : Option Config
  deriving DecidableEq, Repr

/-- Struct `fileWalker`. -/
structure fileWalker where
  client : Option Client
  config : Option Config
  toDir : String
  fromDir : String
  deriving DecidableEq, Repr

/-- One call of `doCopy`: the client and configuration, the stream and the
remote path. -/
structure Transfer where
  client : Option Client
  config : Option Config
  src : File
  dest : String
  deriving DecidableEq, Repr

/-- Everything outside `winrmcp.go` that its functions consult: the local file
system, the standard library calls whose result depends on the machine, and the
helpers of the package that are defined in other files. Every field is an
arbitrary function, so a theorem about all environments covers every behaviour
of these collaborators. -/
structure Env where
  /-- The error of `os.Open(path)`, if any. -/
  openErr : String → Option GoError
  /-- The bytes of the local file at `path`. -/
  fileBytes : String → Bytes
  /-- Method `f.Stat()` of the file opened at `path`. -/
  fstat : String → Except GoError FileInfo
  /-- Call `os.Stat(path)`. -/
  stat : String → Except GoError FileInfo
  /-- The error of `os.Create(path)`, if any. -/
  createErr : String → Option GoError
  /-- The calls `filepath.Walk(root, fn)` makes to `fn`, in order, as long as
  `fn` returns nil. -/
  walk : String → List WalkEvent
  /-- The error of `zip.FileInfoHeader(info)`, if any. -/
  headerErr : FileInfo → Option GoError
  /-- The error of `archive.CreateHeader(header)`, if any. -/
  createHeaderErr : FileHeader → Option GoError
  /-- The failure of `io.Copy(writer, file)` on the file opened at `path`, if
  any: the number of bytes that reached the writer before it, and the error. -/
  copyFault : String → Option (Nat × GoError)
  /-- The bytes of the zip file that holds the given entries. -/
  archiveBytes : List ArchiveEntry → Bytes
  /-- Call `os.TempDir()`. -/
  tempDir : String
  /-- Helper `tempFileName()` of the package, defined in another file. -/
  tempFileName : String × Option GoError
  /-- Call `filepath.Abs(path)`, its error dropped. -/
  abs : String → String
  /-- Call `filepath.Rel(base, target)`, its error dropped. -/
  rel : String → String → String
  /-- Helper `winPath` of the package, defined in another file. -/
  winPath : String → String
  /-- The result of `doCopy`, defined in another file, for a call. -/
  doCopyResult : Transfer → Option GoError

/-- The part of the world the functions of `winrmcp.go` change: the archives
written by `zipit` (newest first), the calls made to `doCopy` (oldest first) and
the lines printed with `log.Printf`. -/
structure State where
  written : List (String × List ArchiveEntry) := []
  transfers : List Transfer := []
  logs : List String := []
  deriving DecidableEq, Repr

/-- Call `os.Open(path)`: an archive written earlier is read back, any other
path holds the bytes the environment gives it. -/
def osOpen (env : Env) (st : State) (path : String) : Except GoError File :=
  match env.openErr path with
  | some err => .error err
  | none =>
    match st.written.lookup path with
    | some entries => .ok { path := path, content := .archive entries }
    | none => .ok { path := path, content := .bytes (env.fileBytes path) }

/-- The bytes an open file yields when read to its end. -/
def fileData (env : Env) (file : File) : Bytes :=
  match file.content with
  | .bytes data => data
  | .archive entries => env.archiveBytes entries

/-- Go `io.Copy(writer, file)`: without a failure every byte of the file
reaches the writer and the error is nil; a failure leaves the bytes copied
before it and is returned. -/
def ioCopy (env : Env) (file : File) : Bytes × Option GoError :=
  match env.copyFault file.path with
  | none => (fileData env file, none)
  | some (n, err) => ((fileData env file).take n, some err)

/-- Function `doCopy(client, config, in, toPath)`, defined in another file: the
call is recorded and the result is the one the environment gives. -/
def doCopy (env : Env) (client : Option Client) (config : Option Config) (st : State)
    (src : File) (toPath : String) : Option GoError × State :=
  let call : Transfer := { client := client, config := config, src := src, dest := toPath }
  (env.doCopyResult call, { st with transfers := st.transfers ++ [call] })

/-- Go `filepath.Walk`: the function is called on each event in turn and the
first error it returns ends the walk and is the result. -/
def walkWith {α : Type} (fn : α → WalkEvent → Option GoError × α) :
    α → List WalkEvent → Option GoError × α
  | a, [] => (none, a)
  | a, e :: es =>
    match fn a e with
    | (some err, a1) => (some err, a1)
    | (none, a1) => walkWith fn a1 es

/-- Go `zip.FileInfoHeader(info)`: a header named after the file, with the
default method `Store`. -/
def fileInfoHeader (env : Env) (info : FileInfo) : Except GoError FileHeader :=
  match env.headerErr info with
  | some err => .error err
  | none => .ok { Name := info.name, Method := zipStore }

/-! ## `winrmcp.go`: functions -/

/-- Function `shouldUploadFile`: directory entries and the OS X hidden file are
ignored. -/
def shouldUploadFile (fi : FileInfo) : Bool :=
  !fi.isDir && ".DS_Store" != fi.name

/-- Method `Winrmcp.Write`. -/
def Write (env : Env) (fs : Winrmcp) (st : State) (toPath : String) (src : File) :
    Option GoError × State :=
  doCopy env fs.client fs.config st src (env.winPath toPath)

/-- Method `fileWalker.copyFile`, a `filepath.WalkFunc`. -/
def copyFile (env : Env) (fw : fileWalker) (st : State) (fromPath : String)
    (fi : FileInfo) (err : Option GoError) : Option GoError × State :=
  match err with
  | some e => (some e, st)
  | none =>
    if !shouldUploadFile fi then (none, st)
    else
      let hostPath := env.abs fromPath
      let fromDir := env.abs fw.fromDir
      let relPath := env.rel fromDir hostPath
      let toPath := filepathJoin [fw.toDir, relPath]
      match osOpen env st hostPath with
      | .error e => (some (.readFile fromPath e), st)
      | .ok f => doCopy env fw.client fw.config st f (env.winPath toPath)

/-- The two assignments to the header in the function literal of `zipit`
(lines 175 to 185): the name, when `baseDir` is set, is `baseDir` joined with
the path stripped of the prefix `source`; a directory then gets a trailing
slash, any other entry the method `Deflate`. -/
def entryHeader (source baseDir : String) (e : WalkEvent) (header : FileHeader) :
    FileHeader :=
  let header : FileHeader :=
    if baseDir ≠ "" then
      { header with Name := filepathJoin [baseDir, stringsTrimPrefix e.path source] }
    else header
  if e.info.isDir then { header with Name := header.Name ++ "/" }
  else { header with Method := zipDeflate }

/-- The function literal `zipit` passes to `filepath.Walk`. It closes over
`source`, `baseDir` and the archive writer; the entries written so far are
threaded through. The entry is appended by `CreateHeader`, and `io.Copy` then
fills the payload of that last entry. -/
def zipVisit (env : Env) (st : State) (source baseDir : String)
    (archive : List ArchiveEntry) (e : WalkEvent) : Option GoError × List ArchiveEntry :=
  match e.err with
  | some err => (some err, archive)
  | none =>
    match fileInfoHeader env e.info with
    | .error err => (some err, archive)
    | .ok header =>
      let header := entryHeader source baseDir e header
      match env.createHeaderErr header with
      | some err => (some err, archive)
      | none =>
        if e.info.isDir then (none, archive ++ [{ header := header, payload := [] }])
        else
          match osOpen env st e.path with
          | .error err => (some err, archive ++ [{ header := header, payload := [] }])
          | .ok file =>
            let copied := ioCopy env file
            (copied.2, archive ++ [{ header := header, payload := copied.1 }])

/-- The variable `baseDir` of `zipit`: the base name of `source` when `source`
is a directory, else the empty string. -/
def zipBaseDir (info : FileInfo) (source : String) : String :=
  if info.isDir then filepathBase source else ""

/-- Function `zipit(source, target)`. The result of `filepath.Walk` is dropped
by the source, and the final `return err` returns the variable assigned by
`os.Stat`, which is nil at that point. The deferred `archive.Close()` and
`zipfile.Close()` leave the archive at `target`. -/
def zipit (env : Env) (st : State) (source target : String) : Option GoError × State :=
  match env.createErr target with
  | some err => (some err, st)
  | none =>
    match env.stat source with
    | .error _ => (none, { st with written := (target, []) :: st.written })
    | .ok info =>
      let err : Option GoError := none
      let baseDir := zipBaseDir info source
      let walked := walkWith (zipVisit env st source baseDir) [] (env.walk source)
      (err, { st with written := (target, walked.2) :: st.written })

/-- Method `Winrmcp.Copy`. -/
def Copy (env : Env) (fs : Winrmcp) (st : State) (fromPath toPath : String) :
    Option GoError × State :=
  match osOpen env st fromPath with
  | .error err => (some (.readFile fromPath err), st)
  | .ok f =>
    match env.fstat f.path with
    | .error err => (some (.statFile fromPath err), st)
    | .ok fi =>
      if !fi.isDir then Write env fs st toPath f
      else
        let tempFile := env.tempFileName.1
        let err := env.tempFileName.2
        let tempPath := env.tempDir ++ "/" ++ tempFile
        let st := { st with logs := st.logs ++ ["Temp Compressed File: " ++ tempPath] }
        match err with
        | some err => (some (.uniqueName err), st)
        | none =>
          match zipit env st fromPath tempPath with
          | (some ziperr, st) => (some (.zipping ziperr), st)
          | (none, st) =>
            match osOpen env st tempPath with
            | .error err => (some (.readFile tempPath err), st)
            | .ok temp => Write env fs st toPath temp

/-- What `New` needs from other files and packages. -/
structure NewEnv where
  /-- Helper `parseEndpoint` of the package, defined in another file. -/
  parseEndpoint : String → Bool → Bool → String → Bytes → Duration → Except GoError Endpoint
  /-- Value `winrm.DefaultParameters`. -/
  defaultParameters : Parameters
  /-- Function `iso8601.FormatDuration`. -/
  formatDuration : Duration → String
  /-- The error of `winrm.NewClientWithParameters`, if any. -/
  newClientErr : Endpoint → String → String → Parameters → Option GoError

/-- Function `winrm.NewParameters(timeout, locale, envelopeSize)`. -/
def newParameters (timeout locale : String) (envelopeSize : Int) : Parameters :=
  { Timeout := timeout, Locale := locale, EnvelopeSize := envelopeSize }

/-- Function `winrm.NewClientWithParameters`: the client holds its arguments;
it is nil when the call reports an error. -/
def newClientWithParameters (env : NewEnv) (endpoint : Endpoint) (user password : String)
    (params : Parameters) : Option Client × Option GoError :=
  match env.newClientErr endpoint user password params with
  | some err => (none, some err)
  | none => (some { endpoint := endpoint, user := user, password := password,
                    params := params }, none)

/-- Function `New(addr, config)`. Every `config.Field` of the source reads
through the pointer, which is `deref` here; `OperationTimeout.Seconds() > 0`
holds exactly when the duration is positive. -/
def New (env : NewEnv) (addr : String) (config : Option Config) :
    Run (Option Winrmcp × Option GoError) := do
  let c ← deref config
  match env.parseEndpoint addr c.Https c.Insecure c.TLSServerName c.CACertBytes
      c.ConnectTimeout with
  | .error err => return (none, some err)
  | .ok endpoint =>
    let config : Option Config := if config = none then some {} else config
    let params := newParameters env.defaultParameters.Timeout
      env.defaultParameters.Locale env.defaultParameters.EnvelopeSize
    let c ← deref config
    let params : Parameters :=
      if c.TransportDecorator ≠ none then
        { params with TransportDecorator := c.TransportDecorator }
      else params
    let params : Parameters :=
      if 0 < c.OperationTimeout then
        { params with Timeout := env.formatDuration c.OperationTimeout }
      else params
    let made := newClientWithParameters env endpoint c.Auth.User c.Auth.Password params
    return (some { client := made.1, config := config }, made.2)

/-! ## `info.go` -/

/-- Struct `WinrmServiceConfig`. -/
structure WinrmServiceConfig where
  MaxConnections : Int := 0
  MaxConcurrentOperations : Int := 0
  MaxConcurrentOperationsPerUser : Int := 0
  deriving DecidableEq, Repr

/-- Struct `WinrmWinrsConfig`. -/
structure WinrmWinrsConfig where
  MaxMemoryPerShellMB : Int := 0
  MaxShellsPerUser : Int := 0
  MaxConcurrentUsers : Int := 0
  MaxProcessesPerShell : Int := 0
  deriving DecidableEq, Repr

/-- Struct `WinrmConfig`. -/
structure WinrmConfig where
  MaxEnvelopeSizeKB : Int := 0
  MaxTimeoutMS : Int := 0
  Service : WinrmServiceConfig := {}
  Winrs : WinrmWinrsConfig := {}
  deriving DecidableEq, Repr

/-- Struct `PsSettings`. -/
structure PsSettings where
  Version : String := ""
  ExecutionPolicy : String := ""
  deriving DecidableEq, Repr

/-- Struct `Info`. -/
structure Info where
  WinRM : WinrmConfig := {}
  PowerShell : PsSettings := {}
  deriving DecidableEq, Repr

/-- Modelled from the spec: the element type of `pslist`, whose declaration is
in another file of the package; the spec reads the value field of an object of
the structured-object list. -/
structure psobject where
  Value : String
  deriving DecidableEq, Repr

/-- Modelled from the spec: the type `pslist`, whose declaration is in another
file of the package; the spec calls it a minimal structured-object list, and
`runPsVersion` reads `doc.Objects[0].Value`. -/
structure pslist where
  Objects : List psobject := []
  deriving DecidableEq, Repr

/-- The three values `client.RunWithString` returns. -/
structure CmdResult where
  stdout : String
  stderr : String
  err : Option GoError
  deriving DecidableEq, Repr

/-- The remote side of a probe, over a channel state `σ`: the command channel,
the XML decoder of the standard library on the two target types, and the debug
flag. -/
structure Remote (σ : Type) where
  /-- Method `client.RunWithString(command, stdin)`. -/
  runWithString : σ → String → String → CmdResult × σ
  /-- Call `xml.Unmarshal(data, &doc)` on a fresh `pslist`. -/
  unmarshalPslist : String → Except GoError pslist
  /-- Call `xml.Unmarshal(data, config)`: the configuration as the decoder
  leaves it, and the error, if any. -/
  unmarshalConfig : String → WinrmConfig → WinrmConfig × Option GoError
  /-- Whether `os.Getenv("WINRMCP_DEBUG")` is non-empty. -/
  debug : Bool

/-- The state a probe changes: the channel and the lines printed with
`log.Printf`. -/
structure ProbeState (σ : Type) where
  chan : σ
  logs : List String := []

/-- The script of `runPsVersion`. -/
def psVersionScript : String :=
  "$PSVersionTable.PSVersion | ConvertTo-Xml -NoTypeInformation -As String"

/-- The script of `runPsExecutionPolicy`. -/
def psExecutionPolicyScript : String := "Get-ExecutionPolicy | Select-Object"

/-- The command line both PowerShell steps build around their script. -/
def powershellCommand (script : String) : String :=
  "powershell -Command \"" ++ script ++ "\""

/-- The command of `runWinrmConfig`. -/
def winrmConfigCommand : String := "winrm get winrm/config -format:xml"

/-- The `stderr` block shared by the two PowerShell steps: the text is logged
when the debug variable is set. -/
def logStderr {σ : Type} (r : Remote σ) (st : ProbeState σ) (stderr : String) :
    ProbeState σ :=
  if stderr ≠ "" then
    if r.debug then { st with logs := st.logs ++ ["STDERR returned: " ++ stderr ++ "\n"] }
    else st
  else st

/-- Function `runWinrmConfig`: the returned error, the configuration behind the
pointer afterwards, and the state. -/
def runWinrmConfig {σ : Type} (r : Remote σ) (st : ProbeState σ) (config : WinrmConfig) :
    Run ((Option GoError × WinrmConfig) × ProbeState σ) :=
  let res := r.runWithString st.chan winrmConfigCommand ""
  let st : ProbeState σ := { st with chan := res.2 }
  match res.1.err with
  | some err => return ((some err, config), st)
  | none =>
    if res.1.stdout ≠ "" then
      let decoded := r.unmarshalConfig res.1.stdout config
      return ((decoded.2, decoded.1), st)
    else
      return ((none, config), st)

/-- Function `runPsVersion`: the returned error, the settings behind the
pointer afterwards, and the state. -/
def runPsVersion {σ : Type} (r : Remote σ) (st : ProbeState σ) (settings : PsSettings) :
    Run ((Option GoError × PsSettings) × ProbeState σ) :=
  let script := psVersionScript
  let res := r.runWithString st.chan (powershellCommand script) ""
  let st : ProbeState σ := { st with chan := res.2 }
  match res.1.err with
  | some err => return ((some (.executeScript script err), settings), st)
  | none =>
    let st := logStderr r st res.1.stderr
    if res.1.stdout ≠ "" then
      match r.unmarshalPslist res.1.stdout with
      | .error err => return ((some (.parseResults err), settings), st)
      | .ok doc => do
        let first ← index doc.Objects 0
        return ((none, { settings with Version := first.Value }), st)
    else
      return ((none, settings), st)

/-- Function `runPsExecutionPolicy`: the returned error, the settings behind
the pointer afterwards, and the state. -/
def runPsExecutionPolicy {σ : Type} (r : Remote σ) (st : ProbeState σ)
    (settings : PsSettings) : Run ((Option GoError × PsSettings) × ProbeState σ) :=
  let script := psExecutionPolicyScript
  let res := r.runWithString st.chan (powershellCommand script) ""
  let st : ProbeState σ := { st with chan := res.2 }
  match res.1.err with
  | some err => return ((some (.executeScript script err), settings), st)
  | none =>
    let st := logStderr r st res.1.stderr
    if res.1.stdout ≠ "" then
      return ((none, { settings with ExecutionPolicy := stringsTrim res.1.stdout "\n" }), st)
    else
      return ((none, settings), st)

/-- Function `fetchInfo`: the snapshot and the error it returns, and the
state. -/
def fetchInfo {σ : Type} (r : Remote σ) (st : ProbeState σ) :
    Run ((Info × Option GoError) × ProbeState σ) := do
  let info : Info := { WinRM := {}, PowerShell := {} }
  let ((err, ps), st) ← runPsVersion r st info.PowerShell
  let info := { info with PowerShell := ps }
  if err ≠ none then return ((info, err), st)
  let ((err, ps), st) ← runPsExecutionPolicy r st info.PowerShell
  let info := { info with PowerShell := ps }
  if err ≠ none then return ((info, err), st)
  let ((err, wc), st) ← runWinrmConfig r st info.WinRM
  let info := { info with WinRM := wc }
  if err ≠ none then return ((info, err), st)
  return ((info, none), st)

/-! ## Vocabulary of the statements -/

/-- The temporary path `Copy` builds: `os.TempDir()`, a slash and the name
`tempFileName()` returned. -/
def copyTempPath (env : Env) : String := env.tempDir ++ "/" ++ env.tempFileName.1

/-- The state of `Copy` after its `log.Printf`. -/
def copyLogged (env : Env) (st : State) : State :=
  { st with logs := st.logs ++ ["Temp Compressed File: " ++ copyTempPath env] }

/-- The events on which `filepath.Walk` calls the function: all of them up to
and including the first on which the function returns an error. -/
def visitedEvents {α : Type} (fn : α → WalkEvent → Option GoError × α) :
    α → List WalkEvent → List WalkEvent
  | _, [] => []
  | a, e :: es =>
    match fn a e with
    | (some _, _) => [e]
    | (none, a1) => e :: visitedEvents fn a1 es

/-- Whether the visit of an event gets a header built and created: no traversal
error came with the event, `zip.FileInfoHeader` succeeds, and so does
`archive.CreateHeader` on the header `zipit` makes of it. -/
def headerCreated (env : Env) (source baseDir : String) (e : WalkEvent) : Bool :=
  e.err.isNone && (env.headerErr e.info).isNone &&
    (env.createHeaderErr
      (entryHeader source baseDir e { Name := e.info.name, Method := zipStore })).isNone

/-- Line-break characters: the line feed and the carriage return. -/
def isLineBreak (c : Char) : Bool := c = '\n' || c = '\r'

/-! ## Concrete environments -/

/-- An environment in which every call succeeds: each path is an empty regular
file, nothing is walked, and transfers report no error. -/
def plainEnv : Env where
  openErr := fun _ => none
  fileBytes := fun _ => []
  fstat := fun p => .ok { name := filepathBase p, isDir := false }
  stat := fun p => .ok { name := filepathBase p, isDir := false }
  createErr := fun _ => none
  walk := fun _ => []
  headerErr := fun _ => none
  createHeaderErr := fun _ => none
  copyFault := fun _ => none
  archiveBytes := fun _ => []
  tempDir := "/tmp"
  tempFileName := ("winrmcp-0001.tmp", none)
  abs := fun p => p
  rel := fun _ p => p
  winPath := fun p => p
  doCopyResult := fun _ => none

/-- The path `filepath.Walk` gives an entry `name` of the directory it visits
at `dir`: `filepath.Join(dir, name)`. The root itself is passed as given. -/
def walkChild (dir name : String) : String := filepathJoin [dir, name]

/-- No file or directory named `missing` exists: `os.Stat` fails. -/
def missingEnv : Env :=
  { plainEnv with stat := fun _ => .error (.external "no such file or directory") }

/-- A directory `d` whose entries cannot be examined: the walk visits `d`, then
reports the failure of `lstat` on its entry `f`. -/
def unreadableEnv : Env :=
  { plainEnv with
    stat := fun p => .ok { name := filepathBase p, isDir := true }
    fstat := fun p => .ok { name := filepathBase p, isDir := true }
    walk := fun root =>
      [ { path := root, info := { name := filepathBase root, isDir := true }, err := none },
        { path := walkChild root "f", info := { name := "f", isDir := false },
          err := some (.external "permission denied") } ] }

/-- A directory holding one regular file `a` whose three bytes are 1, 2, 3. -/
def oneFileEnv : Env :=
  { plainEnv with
    stat := fun p => .ok { name := filepathBase p, isDir := true }
    fstat := fun p => .ok { name := filepathBase p, isDir := true }
    fileBytes := fun _ => [1, 2, 3]
    walk := fun root =>
      [ { path := root, info := { name := filepathBase root, isDir := true }, err := none },
        { path := walkChild root "a", info := { name := "a", isDir := false },
          err := none } ] }

/-- A remote host whose version command prints an object list without any
object, which the decoder accepts. -/
def emptyListRemote : Remote Unit where
  runWithString := fun _ cmd _ =>
    (if cmd = powershellCommand psVersionScript then
        { stdout := "<Objects></Objects>", stderr := "", err := none }
      else { stdout := "", stderr := "", err := none }, ())
  unmarshalPslist := fun s =>
    if s = "<Objects></Objects>" then .ok { Objects := [] }
    else .error (.external "unexpected EOF")
  unmarshalConfig := fun _ c => (c, none)
  debug := false

/-- An environment for `New` in which the endpoint parses and the client is
built. -/
def plainNewEnv : NewEnv where
  parseEndpoint := fun addr _ _ _ _ _ => .ok { descr := addr }
  defaultParameters := { Timeout := "PT60S", Locale := "en-US", EnvelopeSize := 153600 }
  formatDuration := fun _ => "PT1S"
  newClientErr := fun _ _ _ _ => none

/-- A remote host on which every command succeeds and prints nothing. -/
def silentRemote : Remote Unit where
  runWithString := fun _ _ _ => ({ stdout := "", stderr := "", err := none }, ())
  unmarshalPslist := fun _ => .error (.external "unexpected EOF")
  unmarshalConfig := fun _ c => (c, some (.external "unexpected EOF"))
  debug := false

/-- A remote host whose commands all print the policy between two line
breaks. -/
def paddedPolicyRemote : Remote Unit where
  runWithString := fun _ _ _ => ({ stdout := "\nRestricted\n", stderr := "", err := none }, ())
  unmarshalPslist := fun _ => .ok { Objects := [{ Value := "5.1" }] }
  unmarshalConfig := fun _ c => (c, none)
  debug := false

/-- A walker copying the directory `src` to `C:/dest`. -/
def demoWalker : fileWalker :=
  { client := none, config := none, toDir := "C:/dest", fromDir := "src" }

/-- An environment in which paths relative to `src` are obtained by dropping
that prefix and remote paths use backslashes. -/
def mirrorEnv : Env :=
  { plainEnv with
    abs := fun p => "/home/u/" ++ p
    rel := fun base target => stringsTrimPrefix (stringsTrimPrefix target base) "/"
    winPath := fun p => String.mk (p.data.map (fun c => if c = '/' then '\\' else c))
    fileBytes := fun _ => [7] }

/-- The directory of `oneFileEnv` on a machine where no file can be created:
`os.Create` fails. -/
def fullDiskEnv : Env :=
  { oneFileEnv with createErr := fun _ => some (.external "no space left on device") }

/-- A copier without client or configuration. -/
def bareCopier : Winrmcp := { client := none, config := none }

/-- A machine on which no file can be opened. -/
def lockedEnv : Env :=
  { plainEnv with openErr := fun _ => some (.external "permission denied") }

/-- A directory holding one file named `.DS_Store`, of two bytes. -/
def dsStoreEnv : Env :=
  { plainEnv with
    stat := fun p => .ok { name := filepathBase p, isDir := true }
    fstat := fun p => .ok { name := filepathBase p, isDir := true }
    fileBytes := fun _ => [0, 1]
    walk := fun root =>
      [ { path := root, info := { name := filepathBase root, isDir := true }, err := none },
        { path := walkChild root ".DS_Store", info := { name := ".DS_Store", isDir := false },
          err := none } ] }

/-- The directory of `oneFileEnv` when the archive writer fails on the header of
the file `a`: `CreateHeader` reports an error for the name `dir/a`. -/
def headerFailEnv : Env :=
  { oneFileEnv with
    createHeaderErr := fun h =>
      if h.Name = "dir/a" then some (.external "no space left on device") else none }

/-- The directory of `oneFileEnv` when its file `a` cannot be opened. -/
def lockedChildEnv : Env :=
  { oneFileEnv with
    openErr := fun p => if p = "dir/a" then some (.external "permission denied") else none }

/-- The directory of `oneFileEnv` when reading its file `a` fails after one
byte. -/
def brokenReadEnv : Env :=
  { oneFileEnv with
    copyFault := fun p => if p = "dir/a" then some (1, .external "input/output error") else none }

/-- A remote host whose commands all print the policy followed by a carriage
return and a line feed, as a Windows host does. -/
def crlfPolicyRemote : Remote Unit where
  runWithString := fun _ _ _ => ({ stdout := "Restricted\r\n", stderr := "", err := none }, ())
  unmarshalPslist := fun _ => .ok { Objects := [{ Value := "5.1" }] }
  unmarshalConfig := fun _ c => (c, none)
  debug := false

/-- A remote host whose commands all print the policy and report an error. -/
def failingPolicyRemote : Remote Unit where
  runWithString := fun _ _ _ =>
    ({ stdout := "Restricted\n", stderr := "", err := some (.external "connection reset") }, ())
  unmarshalPslist := fun _ => .ok { Objects := [{ Value := "5.1" }] }
  unmarshalConfig := fun _ c => (c, none)
  debug := false

/-! ## Theorems -/

/-- C6: `shouldUploadFile fi` is true exactly when `fi` is not a directory and
its name is not `.DS_Store`. -/
theorem shouldUploadFile_iff (fi : FileInfo) :
    shouldUploadFile fi = true ↔ (fi.isDir = false ∧ fi.name ≠ ".DS_Store") := by
  unfold shouldUploadFile
  constructor
  · intro h
    simp only [Bool.and_eq_true, Bool.not_eq_true', bne_iff_ne, ne_eq] at h
    exact ⟨h.1, fun hn => h.2 hn.symm⟩
  · rintro ⟨hd, hn⟩
    simp only [Bool.and_eq_true, Bool.not_eq_true', bne_iff_ne, ne_eq]
    exact ⟨hd, fun h => hn h.symm⟩

/-- The error `zipit` returns is always the error of `os.Create(target)`:
whatever `os.Stat` and the walk report is dropped. -/
theorem zipit_result_is_create_error (env : Env) (st : State) (source target : String) :
    (zipit env st source target).1 = env.createErr target := by
  unfold zipit
  cases hc : env.createErr target with
  | some err => rfl
  | none =>
    cases hs : env.stat source with
    | error e => rfl
    | ok info => rfl

/-- C1 (the code at the failing inputs): when `os.Stat(source)` fails, and when
the walk reports a traversal error for an entry, `zipit` returns nil, and
`Copy` of the unreadable directory goes on to transfer the partial archive. -/
theorem zipit_swallows_errors :
    missingEnv.stat "missing" = .error (.external "no such file or directory") ∧
    (zipit missingEnv {} "missing" "/tmp/out.zip").1 = none ∧
    (unreadableEnv.walk "d").map (fun e => e.err)
      = [none, some (.external "permission denied")] ∧
    (zipit unreadableEnv {} "d" "/tmp/out.zip").1 = none ∧
    (Copy unreadableEnv { client := none, config := none } {} "d" "C:/dest").1 = none ∧
    ((Copy unreadableEnv { client := none, config := none } {} "d" "C:/dest").2.transfers.map
      (fun t => t.src.content)) = [.archive [⟨⟨"d/", zipStore⟩, []⟩]] := by
  refine ⟨rfl, rfl, rfl, rfl, rfl, rfl⟩

/-- C2 (the code at the failing input): for the source `./dir` holding a file
`a`, the walk visits `./dir` and `dir/a`, and the entry of the file is named
`dir/dir/a`, with two occurrences of the base name, not `dir/a`. -/
theorem zipit_unclean_source_name :
    filepathBase "./dir" = "dir" ∧
    (oneFileEnv.walk "./dir").map (fun e => e.path) = ["./dir", "dir/a"] ∧
    (zipit oneFileEnv {} "./dir" "/tmp/out.zip").2.written
      = [("/tmp/out.zip", [⟨⟨"dir/", zipStore⟩, []⟩, ⟨⟨"dir/dir/a", zipDeflate⟩, [1, 2, 3]⟩])] ∧
    filepathJoin [filepathBase "./dir", stringsTrimPrefix (walkChild "./dir" "a") "./dir"]
      ≠ filepathBase "./dir" ++ "/" ++ "a" := by
  refine ⟨rfl, rfl, rfl, by decide⟩

/-- C3 (the code at the failing input): when the version command prints a
non-empty object list that decodes without error to no object at all,
`fetchInfo` does not return: it panics on `doc.Objects[0]`. -/
theorem fetchInfo_empty_object_list_panics :
    emptyListRemote.unmarshalPslist "<Objects></Objects>" = .ok { Objects := [] } ∧
    fetchInfo emptyListRemote { chan := () } = .panicked .indexOutOfRange := by
  refine ⟨rfl, rfl⟩

/-- C10 (the code at the failing input): `New(addr, nil)` reads `config.Https`
through the nil pointer before the nil check and panics, whereas `New` with an
empty `Config` returns. -/
theorem New_nil_config_panics (env : NewEnv) (addr : String) :
    New env addr none = .panicked .nilDereference ∧
    ∃ r, New env addr (some {}) = .returned r := by
  constructor
  · rfl
  · unfold New
    cases h : env.parseEndpoint addr false false "" [] 0 with
    | error e =>
      simp only [deref, bind, Run.bind, h, pure]
      exact ⟨_, rfl⟩
    | ok ep =>
      simp only [deref, bind, Run.bind, h, pure]
      exact ⟨_, rfl⟩

/-- A list is what its right-trimmed part and the trailing run removed from
it make together. -/
theorem rdropWhile_append_rtakeWhile_chars (p : Char → Bool) (l : List Char) :
    l.rdropWhile p ++ l.rtakeWhile p = l := by
  unfold List.rdropWhile List.rtakeWhile
  rw [← List.reverse_append, List.takeWhile_append_dropWhile, List.reverse_reverse]

/-- Trimming on both sides: the input is a run of trimmed characters, the
result, and another run of trimmed characters, and the result neither starts
nor ends with a trimmed character. -/
theorem trim_decomposition (p : Char → Bool) (l : List Char) :
    ∃ pre post, l = pre ++ (l.rdropWhile p).dropWhile p ++ post ∧
      (∀ c ∈ pre, p c = true) ∧ (∀ c ∈ post, p c = true) ∧
      (∀ c, ((l.rdropWhile p).dropWhile p).head? = some c → p c = false) ∧
      (∀ c, ((l.rdropWhile p).dropWhile p).getLast? = some c → p c = false) := by
  refine ⟨(l.rdropWhile p).takeWhile p, l.rtakeWhile p, ?_, ?_, ?_, ?_, ?_⟩
  · rw [List.takeWhile_append_dropWhile, rdropWhile_append_rtakeWhile_chars]
  · intro c hc
    exact List.mem_takeWhile_imp hc
  · intro c hc
    unfold List.rtakeWhile at hc
    exact List.mem_takeWhile_imp (List.mem_reverse.mp hc)
  · intro c hc
    have h := List.head?_dropWhile_not p (l.rdropWhile p)
    rw [hc] at h
    exact h
  · intro c hc
    have hv : (l.rdropWhile p).dropWhile p ≠ [] := by
      intro h0
      rw [h0] at hc
      simp at hc
    obtain ⟨t, ht⟩ := List.dropWhile_suffix (l := l.rdropWhile p) p
    have hr : l.rdropWhile p ≠ [] := by
      intro h0
      rw [h0] at hv
      simp at hv
    have hlast := List.rdropWhile_last_not (p := p) (l := l) hr
    have e1 : (l.rdropWhile p).getLast? = some c := by
      rw [← ht, List.getLast?_append_of_ne_nil _ hv, hc]
    rw [List.getLast?_eq_getLast _ hr] at e1
    have e2 : (l.rdropWhile p).getLast hr = c := Option.some.inj e1
    rw [e2] at hlast
    simpa using hlast

/-- Go `strings.Trim(s, "\n")`: `s` is a run of line feeds, the result, and a
run of line feeds, and the result neither starts nor ends with a line feed. -/
theorem stringsTrim_newline (s : String) :
    ∃ pre post : List Char,
      s.data = pre ++ (stringsTrim s "\n").data ++ post ∧
      (∀ c ∈ pre, c = '\n') ∧ (∀ c ∈ post, c = '\n') ∧
      (stringsTrim s "\n").data.head? ≠ some '\n' ∧
      (stringsTrim s "\n").data.getLast? ≠ some '\n' := by
  obtain ⟨pre, post, h1, h2, h3, h4, h5⟩ :=
    trim_decomposition (fun c => decide (c ∈ "\n".data)) s.data
  have hmem : ∀ c : Char, decide (c ∈ "\n".data) = true ↔ c = '\n' := by
    intro c
    simp
  refine ⟨pre, post, h1, ?_, ?_, ?_, ?_⟩
  · intro c hc
    exact (hmem c).mp (h2 c hc)
  · intro c hc
    exact (hmem c).mp (h3 c hc)
  · intro h
    have := h4 '\n' h
    simp at this
  · intro h
    have := h5 '\n' h
    simp at this

/-- C5 (the claim fails): for the output made of a line feed, `Restricted` and
a line feed, the stored policy is `Restricted`, so the output is not the stored
value followed only by line breaks: its leading line feed is gone too. For the
output `Restricted` followed by a carriage return and a line feed, the stored
policy still ends with the carriage return. And when the command reports an
error together with a non-empty output, the policy is not set at all. -/
theorem runPsExecutionPolicy_drops_leading_line_feed :
    (runPsExecutionPolicy paddedPolicyRemote { chan := () } {}
        = .returned ((none, { ExecutionPolicy := "Restricted" }), { chan := () }) ∧
      ¬ ∃ post : List Char, (∀ c ∈ post, isLineBreak c = true) ∧
          "\nRestricted\n".data = "Restricted".data ++ post) ∧
    (runPsExecutionPolicy crlfPolicyRemote { chan := () } {}
        = .returned ((none, { ExecutionPolicy := "Restricted\r" }), { chan := () }) ∧
      "Restricted\r".data.getLast? = some '\r' ∧ isLineBreak '\r' = true) ∧
    runPsExecutionPolicy failingPolicyRemote { chan := () } {}
      = .returned ((some (.executeScript psExecutionPolicyScript
          (.external "connection reset")), {}), { chan := () }) := by
  refine ⟨⟨rfl, ?_⟩, ⟨rfl, rfl, rfl⟩, rfl⟩
  rintro ⟨post, -, h⟩
  have h0 := congrArg List.head? h
  simp at h0

/-- C5 (amended): when the execution-policy command returns no error and a
non-empty output that holds no carriage return, `runPsExecutionPolicy` returns
nil and sets `ExecutionPolicy`, and nothing else of the settings, to the output
with its leading and trailing line breaks removed: the output is a run of line
feeds, the stored value and a run of line feeds, and the stored value neither
starts nor ends with a line-break character. -/
theorem runPsExecutionPolicy_trims_both_ends {σ : Type} (r : Remote σ) (st : ProbeState σ)
    (settings : PsSettings) (out : String)
    (hErr : (r.runWithString st.chan (powershellCommand psExecutionPolicyScript) "").1.err
      = none)
    (hOut : (r.runWithString st.chan (powershellCommand psExecutionPolicyScript) "").1.stdout
      = out)
    (hNonEmpty : out ≠ "")
    (hNoCR : '\r' ∉ out.data) :
    ∃ (st1 : ProbeState σ) (pre post : List Char),
      runPsExecutionPolicy r st settings
        = .returned ((none, { Version := settings.Version,
                              ExecutionPolicy := stringsTrim out "\n" }), st1) ∧
      out.data = pre ++ (stringsTrim out "\n").data ++ post ∧
      (∀ c ∈ pre, c = '\n') ∧ (∀ c ∈ post, c = '\n') ∧
      (∀ c, (stringsTrim out "\n").data.head? = some c → isLineBreak c = false) ∧
      (∀ c, (stringsTrim out "\n").data.getLast? = some c → isLineBreak c = false) := by
  obtain ⟨pre, post, h1, h2, h3, h4, h5⟩ := stringsTrim_newline out
  have hsub : ∀ c ∈ (stringsTrim out "\n").data, c ≠ '\r' := by
    intro c hc hcr
    apply hNoCR
    rw [h1, ← hcr]
    exact List.mem_append_left _ (List.mem_append_right _ hc)
  have hbreak : ∀ c : Char, c ≠ '\n' → c ≠ '\r' → isLineBreak c = false := by
    intro c hn hr
    simp [isLineBreak, hn, hr]
  refine ⟨logStderr r { st with chan :=
      (r.runWithString st.chan (powershellCommand psExecutionPolicyScript) "").2 }
      (r.runWithString st.chan (powershellCommand psExecutionPolicyScript) "").1.stderr,
    pre, post, ?_, h1, h2, h3, ?_, ?_⟩
  · unfold runPsExecutionPolicy
    simp only [hErr, hOut, hNonEmpty, ne_eq, not_false_eq_true, if_true, pure]
  · intro c hc
    refine hbreak c ?_ (hsub c (List.mem_of_mem_head? hc))
    intro hcn
    rw [hcn] at hc
    exact h4 hc
  · intro c hc
    refine hbreak c ?_ (hsub c (List.mem_of_getLast?_eq_some hc))
    intro hcn
    rw [hcn] at hc
    exact h5 hc

/-- Witness of C5 (amended), on the host that prints the policy between two
line feeds. -/
theorem runPsExecutionPolicy_trims_both_ends_witness :
    ∃ (st1 : ProbeState Unit) (pre post : List Char),
      runPsExecutionPolicy paddedPolicyRemote { chan := () } {}
        = .returned ((none, { Version := "",
                              ExecutionPolicy := stringsTrim "\nRestricted\n" "\n" }), st1) ∧
      "\nRestricted\n".data = pre ++ (stringsTrim "\nRestricted\n" "\n").data ++ post ∧
      (∀ c ∈ pre, c = '\n') ∧ (∀ c ∈ post, c = '\n') ∧
      (∀ c, (stringsTrim "\nRestricted\n" "\n").data.head? = some c →
        isLineBreak c = false) ∧
      (∀ c, (stringsTrim "\nRestricted\n" "\n").data.getLast? = some c →
        isLineBreak c = false) :=
  runPsExecutionPolicy_trims_both_ends paddedPolicyRemote { chan := () } {}
    "\nRestricted\n" rfl rfl (by decide) (by decide)

/-- C7: `copyFile` returns a non-nil incoming error without any transfer;
with a nil error it returns nil without any transfer when `shouldUploadFile` is
false; otherwise, when the file opens, it makes exactly one transfer, of the
opened file to `winPath` of `toDir` joined with the path relative to `fromDir`,
and returns the result of that transfer. -/
theorem copyFile_spec (env : Env) (fw : fileWalker) (st : State) (fromPath : String)
    (fi : FileInfo) :
    (∀ e, copyFile env fw st fromPath fi (some e) = (some e, st)) ∧
    (shouldUploadFile fi = false → copyFile env fw st fromPath fi none = (none, st)) ∧
    (shouldUploadFile fi = true → ∀ f, osOpen env st (env.abs fromPath) = .ok f →
      copyFile env fw st fromPath fi none
        = (env.doCopyResult
            { client := fw.client, config := fw.config, src := f,
              dest := env.winPath (filepathJoin
                [fw.toDir, env.rel (env.abs fw.fromDir) (env.abs fromPath)]) },
           { st with transfers := st.transfers ++
              [{ client := fw.client, config := fw.config, src := f,
                 dest := env.winPath (filepathJoin
                   [fw.toDir, env.rel (env.abs fw.fromDir) (env.abs fromPath)]) }] })) := by
  refine ⟨fun e => rfl, ?_, ?_⟩
  · intro h
    simp [copyFile, h]
  · intro h f hf
    simp [copyFile, h, hf, doCopy]

/-- Witness of C7: the file `src/sub/a.txt` is sent once, to
`C:\dest\sub\a.txt`. -/
theorem copyFile_spec_witness :
    shouldUploadFile { name := "a.txt", isDir := false } = true ∧
    osOpen mirrorEnv {} (mirrorEnv.abs "src/sub/a.txt")
      = .ok { path := "/home/u/src/sub/a.txt", content := .bytes [7] } ∧
    copyFile mirrorEnv demoWalker {} "src/sub/a.txt" { name := "a.txt", isDir := false } none
      = (none, { transfers :=
          [{ client := none, config := none,
             src := { path := "/home/u/src/sub/a.txt", content := .bytes [7] },
             dest := "C:\\dest\\sub\\a.txt" }] }) :=
  ⟨rfl, rfl,
    (copyFile_spec mirrorEnv demoWalker {} "src/sub/a.txt"
      { name := "a.txt", isDir := false }).2.2 rfl _ rfl⟩

/-- C4: each of the three probe steps, when its command succeeds with empty
output, returns nil and leaves the value behind its pointer unchanged; and when
the version command succeeds with empty output and the two other steps return
nil, `fetchInfo` returns a nil error and a snapshot whose `PowerShell.Version`
is the empty string. -/
theorem empty_stdout_is_tolerated {σ : Type} (r : Remote σ) :
    (∀ (st : ProbeState σ) (settings : PsSettings),
      (r.runWithString st.chan (powershellCommand psVersionScript) "").1.err = none →
      (r.runWithString st.chan (powershellCommand psVersionScript) "").1.stdout = "" →
      ∃ st1, runPsVersion r st settings = .returned ((none, settings), st1)) ∧
    (∀ (st : ProbeState σ) (settings : PsSettings),
      (r.runWithString st.chan (powershellCommand psExecutionPolicyScript) "").1.err = none →
      (r.runWithString st.chan (powershellCommand psExecutionPolicyScript) "").1.stdout = "" →
      ∃ st1, runPsExecutionPolicy r st settings = .returned ((none, settings), st1)) ∧
    (∀ (st : ProbeState σ) (config : WinrmConfig),
      (r.runWithString st.chan winrmConfigCommand "").1.err = none →
      (r.runWithString st.chan winrmConfigCommand "").1.stdout = "" →
      ∃ st1, runWinrmConfig r st config = .returned ((none, config), st1)) ∧
    (∀ (st st1 st2 st3 : ProbeState σ) (ps : PsSettings) (wc : WinrmConfig),
      (r.runWithString st.chan (powershellCommand psVersionScript) "").1.err = none →
      (r.runWithString st.chan (powershellCommand psVersionScript) "").1.stdout = "" →
      runPsVersion r st {} = .returned ((none, {}), st1) →
      runPsExecutionPolicy r st1 {} = .returned ((none, ps), st2) →
      runWinrmConfig r st2 {} = .returned ((none, wc), st3) →
      fetchInfo r st = .returned (({ WinRM := wc, PowerShell := ps }, none), st3) ∧
        ps.Version = "") := by
  refine ⟨?_, ?_, ?_, ?_⟩
  · intro st settings hErr hOut
    unfold runPsVersion
    simp only [hErr, hOut, ne_eq, not_true_eq_false, if_false, pure]
    exact ⟨_, rfl⟩
  · intro st settings hErr hOut
    unfold runPsExecutionPolicy
    simp only [hErr, hOut, ne_eq, not_true_eq_false, if_false, pure]
    exact ⟨_, rfl⟩
  · intro st config hErr hOut
    unfold runWinrmConfig
    simp only [hErr, hOut, ne_eq, not_true_eq_false, if_false, pure]
    exact ⟨_, rfl⟩
  · intro st st1 st2 st3 ps wc _ _ hv hp hw
    constructor
    · unfold fetchInfo
      simp only [hv, hp, hw, bind, Run.bind, pure, ne_eq, not_true_eq_false, if_false]
    · unfold runPsExecutionPolicy at hp
      cases he : (r.runWithString st1.chan (powershellCommand psExecutionPolicyScript) "").1.err with
      | some err => simp [he, pure] at hp
      | none =>
        simp only [he, pure] at hp
        by_cases ho : (r.runWithString st1.chan (powershellCommand psExecutionPolicyScript)
            "").1.stdout = ""
        · simp only [ho, ne_eq, not_true_eq_false, if_false, Run.returned.injEq,
            Prod.mk.injEq, true_and] at hp
          rw [← hp.1]
        · simp only [ho, ne_eq, not_false_eq_true, if_true, Run.returned.injEq,
            Prod.mk.injEq, true_and] at hp
          rw [← hp.1]

/-- Witness of C4, on the host whose commands all succeed and print nothing:
the probe returns the zero snapshot and a nil error. -/
theorem empty_stdout_is_tolerated_witness :
    fetchInfo silentRemote { chan := () }
      = .returned (({ WinRM := {}, PowerShell := {} }, none), { chan := () }) ∧
    ({} : PsSettings).Version = "" :=
  (empty_stdout_is_tolerated silentRemote).2.2.2 { chan := () } { chan := () }
    { chan := () } { chan := () } {} {} rfl rfl rfl rfl rfl

/-- The transfers recorded are untouched by `zipit`. -/
theorem zipit_transfers (env : Env) (st : State) (source target : String) :
    (zipit env st source target).2.transfers = st.transfers := by
  unfold zipit
  cases env.createErr target with
  | some err => rfl
  | none =>
    cases env.stat source with
    | error e => rfl
    | ok info => rfl

/-- When `os.Create(target)` succeeds, `zipit` leaves one more archive, at
`target`. -/
theorem zipit_written (env : Env) (st : State) (source target : String)
    (hc : env.createErr target = none) :
    ∃ entries, (zipit env st source target).2.written = (target, entries) :: st.written := by
  unfold zipit
  rw [hc]
  cases env.stat source with
  | error e => exact ⟨_, rfl⟩
  | ok info => exact ⟨_, rfl⟩

/-- The directory branch of `Copy`, in the vocabulary of the statements. -/
theorem Copy_directory_eq (env : Env) (fs : Winrmcp) (st : State) (fromPath toPath : String)
    (f : File) (fi : FileInfo) (ho : osOpen env st fromPath = .ok f)
    (hs : env.fstat f.path = .ok fi) (hd : fi.isDir = true) :
    Copy env fs st fromPath toPath =
      match env.tempFileName.2 with
      | some err => (some (.uniqueName err), copyLogged env st)
      | none =>
        match zipit env (copyLogged env st) fromPath (copyTempPath env) with
        | (some ziperr, st2) => (some (.zipping ziperr), st2)
        | (none, st2) =>
          match osOpen env st2 (copyTempPath env) with
          | .error err => (some (.readFile (copyTempPath env) err), st2)
          | .ok temp => Write env fs st2 toPath temp := by
  simp only [Copy, ho, hs, hd, Bool.not_true, Bool.false_eq_true, if_false]
  rfl

/-- C8 (the claim fails): `dir` is a directory, but the archive cannot be
created; `Copy` returns the error of `zipit` and makes no transfer. -/
theorem Copy_directory_without_transfer :
    fullDiskEnv.fstat "dir" = .ok { name := "dir", isDir := true } ∧
    (Copy fullDiskEnv bareCopier {} "dir" "C:/dest").1
      = some (.zipping (.external "no space left on device")) ∧
    (Copy fullDiskEnv bareCopier {} "dir" "C:/dest").2.transfers = [] := by
  refine ⟨rfl, rfl, rfl⟩

/-- C8 (amended): `Copy` dispatches on the metadata of `fromPath`. When opening
or `Stat` fails it returns an error and makes no transfer. When the path opens
and is not a directory it makes exactly one transfer, of that file to
`winPath(toPath)`, returns its result and writes no archive. When it is a
directory: if `tempFileName`, `zipit` or opening the archive fails, it returns
an error and makes no transfer; otherwise it makes exactly one transfer, after
`zipit`, of the archive `zipit` wrote at the temporary path, to
`winPath(toPath)`, and returns its result. -/
theorem Copy_dispatch (env : Env) (fs : Winrmcp) (st : State) (fromPath toPath : String) :
    (∀ e, osOpen env st fromPath = .error e →
      (Copy env fs st fromPath toPath).1 = some (.readFile fromPath e) ∧
      (Copy env fs st fromPath toPath).2.transfers = st.transfers) ∧
    (∀ f e, osOpen env st fromPath = .ok f → env.fstat f.path = .error e →
      (Copy env fs st fromPath toPath).1 = some (.statFile fromPath e) ∧
      (Copy env fs st fromPath toPath).2.transfers = st.transfers) ∧
    (∀ f fi, osOpen env st fromPath = .ok f → env.fstat f.path = .ok fi → fi.isDir = false →
      (Copy env fs st fromPath toPath).1
        = env.doCopyResult { client := fs.client, config := fs.config, src := f,
                             dest := env.winPath toPath } ∧
      (Copy env fs st fromPath toPath).2.transfers
        = st.transfers ++ [{ client := fs.client, config := fs.config, src := f,
                             dest := env.winPath toPath }] ∧
      (Copy env fs st fromPath toPath).2.written = st.written) ∧
    (∀ f fi, osOpen env st fromPath = .ok f → env.fstat f.path = .ok fi → fi.isDir = true →
      (∀ e, env.tempFileName.2 = some e →
        (Copy env fs st fromPath toPath).1 = some (.uniqueName e) ∧
        (Copy env fs st fromPath toPath).2.transfers = st.transfers) ∧
      (∀ e, env.tempFileName.2 = none →
        (zipit env (copyLogged env st) fromPath (copyTempPath env)).1 = some e →
        (Copy env fs st fromPath toPath).1 = some (.zipping e) ∧
        (Copy env fs st fromPath toPath).2.transfers = st.transfers) ∧
      (∀ e, env.tempFileName.2 = none →
        (zipit env (copyLogged env st) fromPath (copyTempPath env)).1 = none →
        osOpen env (zipit env (copyLogged env st) fromPath (copyTempPath env)).2
          (copyTempPath env) = .error e →
        (Copy env fs st fromPath toPath).1 = some (.readFile (copyTempPath env) e) ∧
        (Copy env fs st fromPath toPath).2.transfers = st.transfers) ∧
      (∀ temp, env.tempFileName.2 = none →
        (zipit env (copyLogged env st) fromPath (copyTempPath env)).1 = none →
        osOpen env (zipit env (copyLogged env st) fromPath (copyTempPath env)).2
          (copyTempPath env) = .ok temp →
        (∃ entries,
          (zipit env (copyLogged env st) fromPath (copyTempPath env)).2.written
            = (copyTempPath env, entries) :: st.written ∧
          temp = { path := copyTempPath env, content := .archive entries }) ∧
        (Copy env fs st fromPath toPath).1
          = env.doCopyResult { client := fs.client, config := fs.config, src := temp,
                               dest := env.winPath toPath } ∧
        (Copy env fs st fromPath toPath).2.transfers
          = st.transfers ++ [{ client := fs.client, config := fs.config, src := temp,
                               dest := env.winPath toPath }])) := by
  refine ⟨?_, ?_, ?_, ?_⟩
  · intro e ho
    simp [Copy, ho]
  · intro f e ho hs
    simp [Copy, ho, hs]
  · intro f fi ho hs hd
    simp [Copy, ho, hs, hd, Write, doCopy]
  · intro f fi ho hs hd
    have hzt := zipit_transfers env (copyLogged env st) fromPath (copyTempPath env)
    have hzc := zipit_result_is_create_error env (copyLogged env st) fromPath
      (copyTempPath env)
    rw [Copy_directory_eq env fs st fromPath toPath f fi ho hs hd]
    refine ⟨?_, ?_, ?_, ?_⟩
    · intro e ht
      rw [ht]
      exact ⟨rfl, rfl⟩
    · intro e ht hz
      rw [ht]
      revert hz hzt
      generalize zipit env (copyLogged env st) fromPath (copyTempPath env) = z
      obtain ⟨ze, zs⟩ := z
      intro hzt hz
      simp only at hz hzt
      subst hz
      exact ⟨rfl, hzt⟩
    · intro e ht hz
      rw [ht]
      revert hz hzt
      generalize zipit env (copyLogged env st) fromPath (copyTempPath env) = z
      obtain ⟨ze, zs⟩ := z
      intro hzt hz hopen
      simp only at hz hzt hopen
      subst hz
      simp only [hopen]
      exact ⟨trivial, hzt⟩
    · intro temp ht hz hopen
      have hc : env.createErr (copyTempPath env) = none := by
        rw [← hzc, hz]
      obtain ⟨entries, hw⟩ := zipit_written env (copyLogged env st) fromPath
        (copyTempPath env) hc
      have hw2 : (zipit env (copyLogged env st) fromPath (copyTempPath env)).2.written
          = (copyTempPath env, entries) :: st.written := hw
      refine ⟨⟨entries, hw2, ?_⟩, ?_⟩
      · unfold osOpen at hopen
        rw [hw] at hopen
        cases hoe : env.openErr (copyTempPath env) with
        | some err => simp [hoe] at hopen
        | none =>
          simp only [hoe, List.lookup, beq_self_eq_true, Except.ok.injEq] at hopen
          exact hopen.symm
      · rw [ht]
        clear hw hw2 hzc hc
        revert hz hzt hopen
        generalize zipit env (copyLogged env st) fromPath (copyTempPath env) = z
        obtain ⟨ze, zs⟩ := z
        intro hzt hz hopen
        simp only at hz hzt hopen
        subst hz
        simp only [hopen, Write, doCopy]
        exact ⟨trivial, by rw [hzt]; rfl⟩

/-- Witness of C8 (amended): a path that does not open, a regular file, a
directory whose archive cannot be created, and a directory that is archived
and sent. -/
theorem Copy_dispatch_witness :
    ((Copy lockedEnv bareCopier {} "a.txt" "C:/a.txt").1
        = some (.readFile "a.txt" (.external "permission denied")) ∧
      (Copy lockedEnv bareCopier {} "a.txt" "C:/a.txt").2.transfers = []) ∧
    ((Copy plainEnv bareCopier {} "a.txt" "C:/a.txt").1 = none ∧
      (Copy plainEnv bareCopier {} "a.txt" "C:/a.txt").2.transfers
        = [{ client := none, config := none,
             src := { path := "a.txt", content := .bytes [] }, dest := "C:/a.txt" }] ∧
      (Copy plainEnv bareCopier {} "a.txt" "C:/a.txt").2.written = []) ∧
    ((Copy fullDiskEnv bareCopier {} "dir" "C:/dest").1
        = some (.zipping (.external "no space left on device")) ∧
      (Copy fullDiskEnv bareCopier {} "dir" "C:/dest").2.transfers = []) ∧
    ((Copy oneFileEnv bareCopier {} "dir" "C:/dest").1 = none ∧
      (Copy oneFileEnv bareCopier {} "dir" "C:/dest").2.transfers
        = [{ client := none, config := none,
             src := { path := "/tmp/winrmcp-0001.tmp",
                      content := .archive [⟨⟨"dir/", zipStore⟩, []⟩,
                                           ⟨⟨"dir/a", zipDeflate⟩, [1, 2, 3]⟩] },
             dest := "C:/dest" }]) :=
  ⟨(Copy_dispatch lockedEnv bareCopier {} "a.txt" "C:/a.txt").1 _ rfl,
   (Copy_dispatch plainEnv bareCopier {} "a.txt" "C:/a.txt").2.2.1
      { path := "a.txt", content := .bytes [] } { name := "a.txt", isDir := false }
      rfl rfl rfl,
   ((Copy_dispatch fullDiskEnv bareCopier {} "dir" "C:/dest").2.2.2
      { path := "dir", content := .bytes [1, 2, 3] } { name := "dir", isDir := true }
      rfl rfl rfl).2.1 _ rfl rfl,
   (((Copy_dispatch oneFileEnv bareCopier {} "dir" "C:/dest").2.2.2
      { path := "dir", content := .bytes [1, 2, 3] } { name := "dir", isDir := true }
      rfl rfl rfl).2.2.2
      { path := "/tmp/winrmcp-0001.tmp",
        content := .archive [⟨⟨"dir/", zipStore⟩, []⟩, ⟨⟨"dir/a", zipDeflate⟩, [1, 2, 3]⟩] }
      rfl rfl rfl).2⟩

/-- Go `io.Copy` never writes anything but a prefix of the file, and writes the
whole file when it reports no error. -/
theorem ioCopy_spec (env : Env) (file : File) :
    (ioCopy env file).1 <+: fileData env file ∧
    ((ioCopy env file).2 = none → (ioCopy env file).1 = fileData env file) := by
  unfold ioCopy
  cases env.copyFault file.path with
  | none => exact ⟨List.prefix_refl _, fun _ => rfl⟩
  | some fault =>
    obtain ⟨n, err⟩ := fault
    refine ⟨List.take_prefix _ _, ?_⟩
    intro h
    simp at h

/-- One call of the function literal of `zipit` appends nothing when no header
is built and created for the event. -/
theorem zipVisit_without_header (env : Env) (st : State) (source baseDir : String)
    (archive : List ArchiveEntry) (e : WalkEvent)
    (hg : headerCreated env source baseDir e ≠ true) :
    (zipVisit env st source baseDir archive e).2 = archive := by
  unfold headerCreated at hg
  unfold zipVisit fileInfoHeader
  cases he : e.err with
  | some err => rfl
  | none =>
    cases hh : env.headerErr e.info with
    | some err => rfl
    | none =>
      cases hc : env.createHeaderErr
          (entryHeader source baseDir e { Name := e.info.name, Method := zipStore }) with
      | some err => simp [hc]
      | none => simp [he, hh, hc] at hg

/-- One call of the function literal of `zipit` appends exactly one entry when a
header is built and created for the event: the entry has the header
`entryHeader` makes; its payload is empty for a directory, and for anything
else it is a prefix of the bytes of the file, all of them when the file opens
and is copied without error, none when the file does not open. -/
theorem zipVisit_with_header (env : Env) (st : State) (source baseDir : String)
    (archive : List ArchiveEntry) (e : WalkEvent)
    (hg : headerCreated env source baseDir e = true) :
    ∃ payload : Bytes,
      (zipVisit env st source baseDir archive e).2 =
        archive ++ [{ header := entryHeader source baseDir e
                        { Name := e.info.name, Method := zipStore },
                      payload := payload }] ∧
      (e.info.isDir = true → payload = []) ∧
      (e.info.isDir = false →
        (∀ file, osOpen env st e.path = .ok file →
          payload <+: fileData env file ∧
          ((ioCopy env file).2 = none → payload = fileData env file)) ∧
        (∀ err, osOpen env st e.path = .error err → payload = [])) := by
  unfold headerCreated at hg
  unfold zipVisit fileInfoHeader
  cases he : e.err with
  | some err => simp [he] at hg
  | none =>
    cases hh : env.headerErr e.info with
    | some err => simp [he, hh] at hg
    | none =>
      cases hc : env.createHeaderErr
          (entryHeader source baseDir e { Name := e.info.name, Method := zipStore }) with
      | some err => simp [he, hh, hc] at hg
      | none =>
        cases hd : e.info.isDir with
        | true =>
          refine ⟨[], ?_, fun _ => rfl, ?_⟩
          · simp [hc, hd]
          · intro h
            cases h
        | false =>
          cases ho : osOpen env st e.path with
          | error err =>
            refine ⟨[], ?_, ?_, fun _ => ⟨?_, fun _ _ => rfl⟩⟩
            · simp [hc, hd, ho]
            · intro h
              cases h
            · intro file hf
              cases hf
          | ok file =>
            refine ⟨(ioCopy env file).1, ?_, ?_, fun _ => ⟨?_, ?_⟩⟩
            · simp [hc, hd, ho]
            · intro h
              cases h
            · intro file2 hf
              cases hf
              exact ioCopy_spec env file
            · intro err hf
              cases hf

/-- The walk of `zipit`, started on any archive: the entries it adds are, in
order, one for each visited event for which a header is built and created. -/
theorem walk_zipVisit_archive (env : Env) (st : State) (source baseDir : String)
    (R : WalkEvent → ArchiveEntry → Prop)
    (hR : ∀ archive e, headerCreated env source baseDir e = true →
      ∃ entry, (zipVisit env st source baseDir archive e).2 = archive ++ [entry] ∧ R e entry)
    (events : List WalkEvent) (archive : List ArchiveEntry) :
    ∃ added,
      (walkWith (zipVisit env st source baseDir) archive events).2 = archive ++ added ∧
      List.Forall₂ R
        ((visitedEvents (zipVisit env st source baseDir) archive events).filter
          (headerCreated env source baseDir)) added := by
  induction events generalizing archive with
  | nil => exact ⟨[], by simp [walkWith], by simp [visitedEvents]⟩
  | cons e es ih =>
    have hno := zipVisit_without_header env st source baseDir archive e
    have hyes := hR archive e
    unfold walkWith visitedEvents
    revert hno hyes
    generalize zipVisit env st source baseDir archive e = z
    obtain ⟨ze, za⟩ := z
    intro hno hyes
    simp only at hno hyes
    by_cases hg : headerCreated env source baseDir e = true
    · obtain ⟨entry, hza, hre⟩ := hyes hg
      cases ze with
      | some err =>
        refine ⟨[entry], hza, ?_⟩
        simp only [List.filter_cons, hg, if_true, List.filter_nil]
        exact List.Forall₂.cons hre List.Forall₂.nil
      | none =>
        subst hza
        obtain ⟨added, hw, hf⟩ := ih (archive ++ [entry])
        refine ⟨entry :: added, ?_, ?_⟩
        · simp only [hw, List.append_assoc, List.singleton_append]
        · simp only [List.filter_cons, hg, if_true]
          exact List.Forall₂.cons hre hf
    · have hza := hno hg
      cases ze with
      | some err =>
        refine ⟨[], by simp [hza], ?_⟩
        simp only [List.filter_cons, hg, if_false, List.filter_nil, Bool.false_eq_true]
        exact List.Forall₂.nil
      | none =>
        subst hza
        obtain ⟨added, hw, hf⟩ := ih za
        refine ⟨added, hw, ?_⟩
        simp only [List.filter_cons, hg, if_false, Bool.false_eq_true]
        exact hf

/-- C9 (the claim fails): the walk of the directory `d` visits `d` and then
`d/f`, the latter with a traversal error, and the archive holds one entry only;
likewise the walk of `dir` visits `dir` and `dir/a` without traversal error,
but `CreateHeader` fails for `dir/a` and the archive holds one entry only; and
when the file `dir/a`, of three bytes, does not open, or its copy fails after
one byte, its entry is left with no byte, or with one. -/
theorem zipit_visited_without_entry :
    ((visitedEvents (zipVisit unreadableEnv {} "d" "d") [] (unreadableEnv.walk "d")).map
        (fun e => (e.path, e.err)) = [("d", none), ("d/f", some (.external "permission denied"))] ∧
      (zipit unreadableEnv {} "d" "/tmp/out.zip").2.written
        = [("/tmp/out.zip", [⟨⟨"d/", zipStore⟩, []⟩])]) ∧
    ((visitedEvents (zipVisit headerFailEnv {} "dir" "dir") [] (headerFailEnv.walk "dir")).map
        (fun e => (e.path, e.err)) = [("dir", none), ("dir/a", none)] ∧
      (zipit headerFailEnv {} "dir" "/tmp/out.zip").2.written
        = [("/tmp/out.zip", [⟨⟨"dir/", zipStore⟩, []⟩])]) ∧
    (lockedChildEnv.fileBytes "dir/a" = [1, 2, 3] ∧
      (zipit lockedChildEnv {} "dir" "/tmp/out.zip").2.written
        = [("/tmp/out.zip", [⟨⟨"dir/", zipStore⟩, []⟩, ⟨⟨"dir/a", zipDeflate⟩, []⟩])]) ∧
    (osOpen brokenReadEnv {} "dir/a" = .ok { path := "dir/a", content := .bytes [1, 2, 3] } ∧
      (zipit brokenReadEnv {} "dir" "/tmp/out.zip").2.written
        = [("/tmp/out.zip", [⟨⟨"dir/", zipStore⟩, []⟩, ⟨⟨"dir/a", zipDeflate⟩, [1]⟩])]) := by
  refine ⟨⟨rfl, rfl⟩, ⟨rfl, rfl⟩, ⟨rfl, rfl⟩, ⟨rfl, rfl⟩⟩

/-- C9 (amended): when `zipit` gets to its walk, the archive it writes holds, in
order, exactly one entry for each visited event that came without a traversal
error and whose header was built and created, whatever its name, and no other
entry. The entry of a directory has a name ending in a slash and an empty
payload. The entry of anything else has the method `Deflate`; when the file
opens and `io.Copy` reports no error its payload is exactly the bytes of the
file; otherwise the payload is the prefix of those bytes copied before the
failure, empty when the file does not open. -/
theorem zipit_one_entry_per_visit (env : Env) (st : State) (source target : String)
    (info : FileInfo) (hc : env.createErr target = none) (hs : env.stat source = .ok info) :
    ∃ entries,
      (zipit env st source target).2.written = (target, entries) :: st.written ∧
      List.Forall₂
        (fun e entry =>
          entry.header = entryHeader source (zipBaseDir info source) e
            { Name := e.info.name, Method := zipStore } ∧
          (e.info.isDir = true →
            entry.header.Name.data.getLast? = some '/' ∧ entry.payload = []) ∧
          (e.info.isDir = false →
            entry.header.Method = zipDeflate ∧
            (∀ file, osOpen env st e.path = .ok file →
              entry.payload <+: fileData env file ∧
              ((ioCopy env file).2 = none → entry.payload = fileData env file)) ∧
            (∀ err, osOpen env st e.path = .error err → entry.payload = [])))
        ((visitedEvents (zipVisit env st source (zipBaseDir info source)) []
            (env.walk source)).filter (headerCreated env source (zipBaseDir info source)))
        entries := by
  obtain ⟨added, hw, hf⟩ := walk_zipVisit_archive env st source (zipBaseDir info source)
    (fun e entry =>
      entry.header = entryHeader source (zipBaseDir info source) e
        { Name := e.info.name, Method := zipStore } ∧
      (e.info.isDir = true →
        entry.header.Name.data.getLast? = some '/' ∧ entry.payload = []) ∧
      (e.info.isDir = false →
        entry.header.Method = zipDeflate ∧
        (∀ file, osOpen env st e.path = .ok file →
          entry.payload <+: fileData env file ∧
          ((ioCopy env file).2 = none → entry.payload = fileData env file)) ∧
        (∀ err, osOpen env st e.path = .error err → entry.payload = [])))
    (by
      intro archive e hg
      obtain ⟨payload, hz, hdir, hfile⟩ :=
        zipVisit_with_header env st source (zipBaseDir info source) archive e hg
      refine ⟨_, hz, rfl, ?_, ?_⟩
      · intro hd
        refine ⟨?_, hdir hd⟩
        unfold entryHeader
        simp [hd]
      · intro hd
        refine ⟨?_, hfile hd⟩
        unfold entryHeader
        simp [hd])
    (env.walk source) []
  refine ⟨added, ?_, hf⟩
  unfold zipit
  simp only [hc, hs]
  rw [hw, List.nil_append]

/-- Witness of C9 (amended): a directory holding a file named `.DS_Store`; both
are archived, the file with its two bytes. -/
theorem zipit_one_entry_per_visit_witness :
    (∃ entries,
      (zipit dsStoreEnv {} "dir" "/tmp/out.zip").2.written = ("/tmp/out.zip", entries) :: [] ∧
      List.Forall₂
        (fun e entry =>
          entry.header = entryHeader "dir" (zipBaseDir { name := "dir", isDir := true } "dir") e
            { Name := e.info.name, Method := zipStore } ∧
          (e.info.isDir = true →
            entry.header.Name.data.getLast? = some '/' ∧ entry.payload = []) ∧
          (e.info.isDir = false →
            entry.header.Method = zipDeflate ∧
            (∀ file, osOpen dsStoreEnv {} e.path = .ok file →
              entry.payload <+: fileData dsStoreEnv file ∧
              ((ioCopy dsStoreEnv file).2 = none → entry.payload = fileData dsStoreEnv file)) ∧
            (∀ err, osOpen dsStoreEnv {} e.path = .error err → entry.payload = [])))
        ((visitedEvents
            (zipVisit dsStoreEnv {} "dir" (zipBaseDir { name := "dir", isDir := true } "dir")) []
            (dsStoreEnv.walk "dir")).filter
          (headerCreated dsStoreEnv "dir" (zipBaseDir { name := "dir", isDir := true } "dir")))
        entries) ∧
    dsStoreEnv.fileBytes "dir/.DS_Store" = [0, 1] ∧
    (zipit dsStoreEnv {} "dir" "/tmp/out.zip").2.written
      = [("/tmp/out.zip", [⟨⟨"dir/", zipStore⟩, []⟩, ⟨⟨"dir/.DS_Store", zipDeflate⟩, [0, 1]⟩])] :=
  ⟨zipit_one_entry_per_visit dsStoreEnv {} "dir" "/tmp/out.zip" { name := "dir", isDir := true }
    rfl rfl, rfl, rfl⟩

end WinrmcpModel
